import Mathlib

/-!
Verification of the Intent-Bound Authorization (IBA) core: scope matching,
intent declarations with a deterministic content hash, the per-session
validator (admission, rate limiting, drift detection, statistics) and the
HMAC-based intent binder.  The repository ships its test suite; the library
itself is modelled here from the specification, with every definition
constrained by the behaviour the tests exercise.
-/

namespace IBA

/-- Modelled from the spec: `IntentScope` — the set of allowed/forbidden
resource patterns and usage limits governing an intent.  Pattern lists keep
their construction order; `resource_limits` maps a limit name to a positive
integer ceiling. -/
structure IntentScope where
  allowed_resources : List String := []
  forbidden_resources : List String := []
  resource_limits : List (String × Nat) := []
deriving Repr, DecidableEq

/-- Modelled from the spec: a pattern is either `*` (matches everything), an
exact string, or `<prefix>:*` (matches any identifier sharing `<prefix>:` as
its literal prefix).  No deeper wildcard grammar. -/
def matchesPattern (p r : String) : Bool :=
  if p = "*" then true
  else if p = r then true
  else if List.isSuffixOf [':', '*'] p.toList then
    List.isPrefixOf p.toList.dropLast r.toList
  else false

/-- Modelled from the spec: some pattern in `forbidden_resources` matches
the resource.  Pure function of the scope and the input string. -/
def IntentScope.is_forbidden (s : IntentScope) (r : String) : Bool :=
  s.forbidden_resources.any (fun p => matchesPattern p r)

/-- Modelled from the spec and the shipped tests: true iff some pattern in
`allowed_resources` matches the resource and no pattern in
`forbidden_resources` does.  The spec's 4.1 wording has `is_allowed`
consult only `allowed_resources`, but the repository's own test
`test_forbidden_overrides_allowed` (src/iba/__init__.py:48-54) asserts
`is_allowed("medical_records:patient_data") is False` under
`allowed_resources = ["*"]`, `forbidden_resources = ["medical_records:*"]`,
so the library's `is_allowed` applies the forbidden override itself; the
test suite is the program evidence and the model follows it. -/
def IntentScope.is_allowed (s : IntentScope) (r : String) : Bool :=
  s.allowed_resources.any (fun p => matchesPattern p r) && !(s.is_forbidden r)

/-- Modelled from the spec: `IntentDeclaration` — declared purpose, issuing
principal, scope and validity window.  Instants are modelled as natural
numbers (seconds), matching the second-precision, timezone-normalized
representation the hash uses. -/
structure IntentDeclaration where
  intent_id : String
  declared_purpose : String
  authorized_by : String
  scope : IntentScope
  timestamp : Nat
  expiration : Nat
deriving Repr, DecidableEq

/-- Modelled from the spec: construction fails with `InvalidIntentError` if
`intent_id`, `declared_purpose` or `authorized_by` is empty or if
`expiration <= timestamp`; `expiration` defaults to `timestamp + 1 hour`
(3600 seconds) when not supplied. -/
def IntentDeclaration.create (intent_id declared_purpose authorized_by : String)
    (scope : IntentScope) (timestamp : Nat) (expiration : Option Nat) :
    Except String IntentDeclaration :=
  if intent_id = "" then
    Except.error "InvalidIntentError: intent_id must not be empty"
  else if declared_purpose = "" then
    Except.error "InvalidIntentError: declared_purpose must not be empty"
  else if authorized_by = "" then
    Except.error "InvalidIntentError: authorized_by must not be empty"
  else
    let exp := expiration.getD (timestamp + 3600)
    if exp ≤ timestamp then
      Except.error "InvalidIntentError: expiration must be after timestamp"
    else
      Except.ok ⟨intent_id, declared_purpose, authorized_by, scope, timestamp, exp⟩

/-- Modelled from the spec: `is_expired(now)` is true iff `now >= expiration`;
the current time is injectable. -/
def IntentDeclaration.is_expired (d : IntentDeclaration) (now : Nat) : Bool :=
  decide (d.expiration ≤ now)

/-- Canonical sorted copy of a pattern list, used by the deterministic hash. -/
def sortStrings (l : List String) : List String :=
  List.insertionSort (· ≤ ·) l

/-- Lexicographic comparison on `(limit name, ceiling)` pairs, the canonical
order for `resource_limits` inside the deterministic hash. -/
def limitLE (a b : String × Nat) : Prop :=
  a.1 < b.1 ∨ (a.1 = b.1 ∧ a.2 ≤ b.2)

instance : DecidableRel limitLE := fun a b => by
  unfold limitLE; infer_instance

instance : IsTotal (String × Nat) limitLE where
  total a b := by
    rcases lt_trichotomy a.1 b.1 with h | h | h
    · exact Or.inl (Or.inl h)
    · rcases Nat.le_total a.2 b.2 with h2 | h2
      · exact Or.inl (Or.inr ⟨h, h2⟩)
      · exact Or.inr (Or.inr ⟨h.symm, h2⟩)
    · exact Or.inr (Or.inl h)

instance : IsTrans (String × Nat) limitLE where
  trans a b c hab hbc := by
    rcases hab with h1 | ⟨h1, h1'⟩
    · rcases hbc with h2 | ⟨h2, _⟩
      · exact Or.inl (h1.trans h2)
      · exact Or.inl (h2 ▸ h1)
    · rcases hbc with h2 | ⟨h2, h2'⟩
      · exact Or.inl (h1 ▸ h2)
      · exact Or.inr ⟨h1.trans h2, h1'.trans h2'⟩

instance : IsAntisymm (String × Nat) limitLE where
  antisymm a b hab hba := by
    rcases hab with h1 | ⟨h1, h1'⟩
    · rcases hba with h2 | ⟨h2, _⟩
      · exact absurd (h1.trans h2) (lt_irrefl _)
      · exact absurd h1 (h2 ▸ lt_irrefl _)
    · rcases hba with h2 | ⟨h2, h2'⟩
      · exact absurd h2 (h1 ▸ lt_irrefl _)
      · exact Prod.ext h1 (Nat.le_antisymm h1' h2')

/-- Canonical sorted copy of the resource-limit mapping. -/
def sortLimits (l : List (String × Nat)) : List (String × Nat) :=
  List.insertionSort limitLE l

/-- Modelled from the spec: the canonical encoding hashed by
`get_deterministic_hash` — the tuple `(intent_id, declared_purpose,
authorized_by, allowed_resources, forbidden_resources, resource_limits,
timestamp, expiration)` with the scope's pattern sets canonicalized by
sorted order.  The SHA-256 digest of this encoding is modelled by the
encoding itself, an injective stand-in. -/
structure CanonicalForm where
  intent_id : String
  declared_purpose : String
  authorized_by : String
  allowed_sorted : List String
  forbidden_sorted : List String
  limits_sorted : List (String × Nat)
  timestamp : Nat
  expiration : Nat
deriving Repr, DecidableEq

/-- Modelled from the spec: deterministic content hash of a declaration —
a pure function of the field values, with pattern sets canonicalized by
sorted order before hashing. -/
def IntentDeclaration.get_deterministic_hash (d : IntentDeclaration) : CanonicalForm :=
  ⟨d.intent_id, d.declared_purpose, d.authorized_by,
   sortStrings d.scope.allowed_resources,
   sortStrings d.scope.forbidden_resources,
   sortLimits d.scope.resource_limits,
   d.timestamp, d.expiration⟩

/-- Modelled from the spec: the transport encoding of a declaration — a
structural record with every field of the declaration, instants at second
precision. -/
structure IntentDict where
  intent_id : String
  declared_purpose : String
  authorized_by : String
  allowed_resources : List String
  forbidden_resources : List String
  resource_limits : List (String × Nat)
  timestamp : Nat
  expiration : Nat
deriving Repr, DecidableEq

/-- Modelled from the spec: structural encoding of every field. -/
def IntentDeclaration.to_dict (d : IntentDeclaration) : IntentDict :=
  ⟨d.intent_id, d.declared_purpose, d.authorized_by,
   d.scope.allowed_resources, d.scope.forbidden_resources,
   d.scope.resource_limits, d.timestamp, d.expiration⟩

/-- Modelled from the spec: rebuild a declaration from its transport
encoding. -/
def IntentDeclaration.from_dict (dd : IntentDict) : IntentDeclaration :=
  ⟨dd.intent_id, dd.declared_purpose, dd.authorized_by,
   ⟨dd.allowed_resources, dd.forbidden_resources, dd.resource_limits⟩,
   dd.timestamp, dd.expiration⟩

/-- One entry of the validator's append-only action history. -/
structure ActionRecord where
  action : String
  resource : String
  allowed : Bool
  reason : String
deriving Repr, DecidableEq

/-- Result of one admission decision: `{allowed, reason}`. -/
structure ValidationResult where
  allowed : Bool
  reason : String
deriving Repr, DecidableEq

/-- Modelled from the spec: the validator's session state — the wrapped
declaration, the single general-purpose API-call counter (keyed by
`max_api_calls`), incremental allowed/blocked tallies and the append-only
history. -/
structure IntentValidator where
  declaration : IntentDeclaration
  api_calls : Nat
  allowed_count : Nat
  blocked_count : Nat
  history : List ActionRecord
deriving Repr, DecidableEq

/-- Fresh validator around one declaration: counters and tallies zero,
history empty. -/
def IntentValidator.init (d : IntentDeclaration) : IntentValidator :=
  ⟨d, 0, 0, 0, []⟩

/-- Append one record to the history and bump exactly one tally; shared by
every branch of `validate_action`. -/
def IntentValidator.record (v : IntentValidator) (action resource : String)
    (ok : Bool) (reason : String) : ValidationResult × IntentValidator :=
  (⟨ok, reason⟩,
   { v with
     history := v.history ++ [⟨action, resource, ok, reason⟩],
     allowed_count := if ok then v.allowed_count + 1 else v.allowed_count,
     blocked_count := if ok then v.blocked_count else v.blocked_count + 1 })

/-- Modelled from the spec: per-action admission.  Order of checks:
expiration, forbidden patterns, allowed patterns, then the rate limit,
whose counter is incremented but saturates at ceiling + 1.  Every call
appends one history record; denial is an ordinary result, never an
error. -/
def IntentValidator.validate_action (v : IntentValidator) (now : Nat)
    (action resource : String) : ValidationResult × IntentValidator :=
  if v.declaration.is_expired now then
    v.record action resource false "Intent has expired"
  else if v.declaration.scope.is_forbidden resource then
    v.record action resource false "Resource matches forbidden pattern"
  else if !v.declaration.scope.is_allowed resource then
    v.record action resource false "Resource not in allowed scope"
  else
    match v.declaration.scope.resource_limits.lookup "max_api_calls" with
    | some ceiling =>
      let newCount := min (v.api_calls + 1) (ceiling + 1)
      let v' := { v with api_calls := newCount }
      if ceiling < newCount then
        v'.record action resource false "API call limit exceeded"
      else
        v'.record action resource true "Action aligns with declared intent"
    | none => v.record action resource true "Action aligns with declared intent"

/-- Number of denied actions recorded in the history. -/
def IntentValidator.violations (v : IntentValidator) : Nat :=
  v.history.countP (fun rec => !rec.allowed)

/-- Result of drift inspection: `{drift_detected, reason}`. -/
structure DriftResult where
  drift_detected : Bool
  reason : Option String
deriving Repr, DecidableEq

/-- Modelled from the spec: report drift iff the number of denied actions in
the history reaches the fixed repetition threshold of 3. -/
def IntentValidator.detect_drift (v : IntentValidator) : DriftResult :=
  if 3 ≤ v.violations then ⟨true, some "Repeated violations detected"⟩
  else ⟨false, none⟩

/-- Session statistics: `{total_actions, allowed, blocked, violation_rate}`. -/
structure Statistics where
  total_actions : Nat
  allowed : Nat
  blocked : Nat
  violation_rate : ℚ
deriving Repr, DecidableEq

/-- Modelled from the spec: `total_actions = len(history)`, tallies are the
incrementally maintained counts, `violation_rate = blocked / total_actions`
(0 when `total_actions = 0`, never dividing by zero). -/
def IntentValidator.get_statistics (v : IntentValidator) : Statistics :=
  let total := v.history.length
  ⟨total, v.allowed_count, v.blocked_count,
   if total = 0 then 0 else (v.blocked_count : ℚ) / (total : ℚ)⟩

/-- Run a sequence of `(action, resource)` admissions at one instant,
threading the validator state. -/
def IntentValidator.runActions (v : IntentValidator) (now : Nat)
    (calls : List (String × String)) : IntentValidator :=
  calls.foldl (fun s c => (s.validate_action now c.1 c.2).2) v

/-- Run a sequence of `(now, action, resource)` admissions, threading the
validator state. -/
def IntentValidator.runActionsAt (v : IntentValidator)
    (calls : List (Nat × String × String)) : IntentValidator :=
  calls.foldl (fun s c => (s.validate_action c.1 c.2.1 c.2.2).2) v

/-- The `(n+1)`-st admission outcome in a run of identical calls: state and
result after `n` prior identical calls. -/
def IntentValidator.nthCall (d : IntentDeclaration) (now : Nat)
    (action resource : String) (n : Nat) : ValidationResult × IntentValidator :=
  ((IntentValidator.init d).runActions now (List.replicate n (action, resource))).validate_action
    now action resource

/-- Modelled from the spec: the output of the modelled HMAC-SHA256 keyed
hash — an injective function of the key and the signed context (intent
hash, principal, bind instant).  Stands in for the real MAC bytes. -/
structure HmacSha256Tag where
  key : String
  intent_hash : CanonicalForm
  principal : String
  bound_at : Nat
deriving Repr, DecidableEq

/-- Modelled from the spec: the HMAC-SHA256 keyed-hash computation. -/
def hmacSha256 (key : String) (h : CanonicalForm) (principal : String)
    (bound_at : Nat) : HmacSha256Tag :=
  ⟨key, h, principal, bound_at⟩

/-- Modelled from the spec: the binding token — intent hash at bind time,
scheme name, signature over the stored hash, binding principal and
instant. -/
structure BindingToken where
  intent_hash : CanonicalForm
  algorithm : String
  signature : HmacSha256Tag
  bound_by : String
  bound_at : Nat
deriving Repr, DecidableEq

/-- Modelled from the spec: `SimpleIntentBinder` — symmetric keyed-hash
binder holding a local secret. -/
structure SimpleIntentBinder where
  secret_key : String
deriving Repr, DecidableEq

/-- Modelled from the spec: compute the declaration's deterministic hash,
sign it together with the principal and the bind instant under the binder's
key, and return a token with `algorithm` set to the scheme name. -/
def SimpleIntentBinder.bind_intent (b : SimpleIntentBinder)
    (d : IntentDeclaration) (principal : String) (now : Nat) : BindingToken :=
  ⟨d.get_deterministic_hash, "HMAC-SHA256",
   hmacSha256 b.secret_key d.get_deterministic_hash principal now,
   principal, now⟩

/-- Modelled from the spec: recompute the candidate declaration's hash and
compare with `token.intent_hash`; on mismatch fail immediately without
checking the signature, otherwise verify the signature over the stored
hash.  Failure is the boolean `false`, never a thrown error. -/
def SimpleIntentBinder.verify_intent (b : SimpleIntentBinder)
    (token : BindingToken) (d : IntentDeclaration) : Bool :=
  decide (d.get_deterministic_hash = token.intent_hash) &&
    decide (token.signature =
      hmacSha256 b.secret_key token.intent_hash token.bound_by token.bound_at)

/-! Helper lemmas shared by the claim theorems. -/

theorem insertionSort_eq_iff_perm {α : Type} (r : α → α → Prop) [DecidableRel r]
    [IsTotal α r] [IsTrans α r] [IsAntisymm α r] (l1 l2 : List α) :
    List.insertionSort r l1 = List.insertionSort r l2 ↔ l1.Perm l2 := by
  constructor
  · intro h
    exact ((List.perm_insertionSort r l1).symm.trans (h ▸ List.perm_insertionSort r l2))
  · intro h
    exact List.eq_of_perm_of_sorted
      (((List.perm_insertionSort r l1).trans h).trans (List.perm_insertionSort r l2).symm)
      (List.sorted_insertionSort r l1) (List.sorted_insertionSort r l2)

theorem sortStrings_eq_iff_perm (l1 l2 : List String) :
    sortStrings l1 = sortStrings l2 ↔ l1.Perm l2 :=
  insertionSort_eq_iff_perm (· ≤ ·) l1 l2

theorem sortLimits_eq_iff_perm (l1 l2 : List (String × Nat)) :
    sortLimits l1 = sortLimits l2 ↔ l1.Perm l2 :=
  insertionSort_eq_iff_perm limitLE l1 l2

theorem matchesPattern_iff (p r : String) :
    matchesPattern p r = true ↔
      p = "*" ∨ p = r ∨
        ∃ pre : List Char, p.toList = pre ++ [':', '*'] ∧
          List.IsPrefix (pre ++ [':']) r.toList := by
  unfold matchesPattern
  split_ifs with h1 h2 h3
  · simp [h1]
  · simp [h2]
  · rw [List.isSuffixOf_iff_suffix] at h3
    obtain ⟨pre, hpre⟩ := h3
    constructor
    · intro hp
      rw [List.isPrefixOf_iff_prefix] at hp
      refine Or.inr (Or.inr ⟨pre, hpre.symm, ?_⟩)
      have : p.toList.dropLast = pre ++ [':'] := by
        rw [← hpre]
        have : pre ++ [':', '*'] = (pre ++ [':']) ++ ['*'] := by simp
        rw [this, List.dropLast_concat]
      rwa [this] at hp
    · rintro (h | h | ⟨pre2, hp2, hpref⟩)
      · exact absurd h h1
      · exact absurd h h2
      · rw [List.isPrefixOf_iff_prefix]
        have : p.toList.dropLast = pre2 ++ [':'] := by
          rw [hp2]
          have : pre2 ++ [':', '*'] = (pre2 ++ [':']) ++ ['*'] := by simp
          rw [this, List.dropLast_concat]
        rwa [this]
  · constructor
    · intro h; exact absurd h (by simp)
    · rintro (h | h | ⟨pre, hp, _⟩)
      · exact absurd h h1
      · exact absurd h h2
      · refine absurd ?_ h3
        rw [List.isSuffixOf_iff_suffix]
        exact ⟨pre, hp.symm⟩

theorem hash_eq_iff (d1 d2 : IntentDeclaration) :
    d1.get_deterministic_hash = d2.get_deterministic_hash ↔
      (d1.intent_id = d2.intent_id ∧ d1.declared_purpose = d2.declared_purpose ∧
       d1.authorized_by = d2.authorized_by ∧
       d1.scope.allowed_resources.Perm d2.scope.allowed_resources ∧
       d1.scope.forbidden_resources.Perm d2.scope.forbidden_resources ∧
       d1.scope.resource_limits.Perm d2.scope.resource_limits ∧
       d1.timestamp = d2.timestamp ∧ d1.expiration = d2.expiration) := by
  simp [IntentDeclaration.get_deterministic_hash, CanonicalForm.mk.injEq,
        sortStrings_eq_iff_perm, sortLimits_eq_iff_perm]

theorem validate_action_step (v : IntentValidator) (now : Nat) (a r : String) :
    ∃ (n : Nat) (ok : Bool) (reason : String),
      v.validate_action now a r =
        IntentValidator.record { v with api_calls := n } a r ok reason := by
  unfold IntentValidator.validate_action
  split_ifs with h1 h2 h3
  · exact ⟨v.api_calls, _, _, rfl⟩
  · exact ⟨v.api_calls, _, _, rfl⟩
  · exact ⟨v.api_calls, _, _, rfl⟩
  · cases hl : v.declaration.scope.resource_limits.lookup "max_api_calls" with
    | none => simp only [hl]; exact ⟨v.api_calls, _, _, rfl⟩
    | some ceiling =>
      simp only [hl]
      split_ifs with h4
      · exact ⟨min (v.api_calls + 1) (ceiling + 1), _, _, rfl⟩
      · exact ⟨min (v.api_calls + 1) (ceiling + 1), _, _, rfl⟩

theorem validate_action_facts (v : IntentValidator) (now : Nat) (a r : String) :
    ((v.validate_action now a r).2).declaration = v.declaration ∧
    ((v.validate_action now a r).2).history =
      v.history ++ [⟨a, r, (v.validate_action now a r).1.allowed,
        (v.validate_action now a r).1.reason⟩] ∧
    ((v.validate_action now a r).2).allowed_count +
        ((v.validate_action now a r).2).blocked_count =
      v.allowed_count + v.blocked_count + 1 := by
  obtain ⟨n, ok, reason, h⟩ := validate_action_step v now a r
  rw [h]
  cases ok <;> simp [IntentValidator.record] <;> omega

/-! Claim theorems. -/

theorem anyPattern_iff (l : List String) (r : String) :
    l.any (fun p => matchesPattern p r) = true ↔
      ∃ p ∈ l, p = "*" ∨ p = r ∨
        ∃ pre : List Char, p.toList = pre ++ [':', '*'] ∧
          List.IsPrefix (pre ++ [':']) r.toList := by
  rw [List.any_eq_true]
  constructor
  · rintro ⟨p, hmem, hmatch⟩
    exact ⟨p, hmem, (matchesPattern_iff p r).mp hmatch⟩
  · rintro ⟨p, hmem, hshape⟩
    exact ⟨p, hmem, (matchesPattern_iff p r).mpr hshape⟩

/-- Counterexample to C3 as stated: under `allowed_resources = ["*"]`,
`forbidden_resources = ["medical_records:*"]` the program's `is_allowed`
(pinned by `test_forbidden_overrides_allowed`, src/iba/__init__.py:48-54)
returns false on `"medical_records:x"`, not true; and dropping the
forbidden pattern flips the answer, so `is_allowed` does not depend only on
`allowed_resources`. -/
theorem iba_C3_counterexample :
    IntentScope.is_allowed ⟨["*"], ["medical_records:*"], []⟩
        "medical_records:x" = false ∧
    IntentScope.is_allowed ⟨["*"], [], []⟩ "medical_records:x" = true := by
  decide

/-- Claim C3 (amended): `is_allowed` is true iff some pattern of
`allowed_resources` is `*`, is exactly the resource, or ends with `:*` and
the resource starts with the pattern minus the trailing `*`, AND no pattern
of `forbidden_resources` matches the resource under the same rule;
`is_allowed` consults `forbidden_resources` as well, so with
`allowed_resources = ["*"]` and
`forbidden_resources = ["medical_records:*"]`,
`is_allowed "medical_records:x"` is false. -/
theorem iba_C3_is_allowed_characterization (s : IntentScope) (r : String) :
    (s.is_allowed r = true ↔
      ((∃ p ∈ s.allowed_resources,
          p = "*" ∨ p = r ∨
            ∃ pre : List Char, p.toList = pre ++ [':', '*'] ∧
              List.IsPrefix (pre ++ [':']) r.toList) ∧
       ¬ ∃ p ∈ s.forbidden_resources,
          p = "*" ∨ p = r ∨
            ∃ pre : List Char, p.toList = pre ++ [':', '*'] ∧
              List.IsPrefix (pre ++ [':']) r.toList)) ∧
    IntentScope.is_allowed ⟨["*"], ["medical_records:*"], []⟩
        "medical_records:x" = false := by
  refine ⟨?_, by decide⟩
  unfold IntentScope.is_allowed IntentScope.is_forbidden
  rw [Bool.and_eq_true]
  constructor
  · rintro ⟨hA, hNF⟩
    refine ⟨(anyPattern_iff _ _).mp hA, fun hF => ?_⟩
    rw [(anyPattern_iff s.forbidden_resources r).mpr hF] at hNF
    exact Bool.noConfusion hNF
  · rintro ⟨hA, hNF⟩
    refine ⟨(anyPattern_iff _ _).mpr hA, ?_⟩
    cases hfb : s.forbidden_resources.any (fun p => matchesPattern p r) with
    | false => rfl
    | true => exact absurd ((anyPattern_iff _ _).mp hfb) hNF

/-- Concrete scope for the C3 witness. -/
def scopeC3 : IntentScope := ⟨["calendar:*"], [], []⟩

/-- Witness for C3 (amended): the characterization applied at a concrete
scope and resource, each side condition discharged by evaluation. -/
theorem iba_C3_witness : scopeC3.is_allowed "calendar:read" = true :=
  ((iba_C3_is_allowed_characterization scopeC3 "calendar:read").1).mpr
    ⟨⟨"calendar:*", by decide,
        Or.inr (Or.inr ⟨"calendar".toList, by decide, by decide⟩)⟩,
     by rintro ⟨p, hp, -⟩; exact absurd hp (List.not_mem_nil p)⟩

/-- Claim C6: declarations with identical field values (timestamp and
expiration included) hash identically, independently of object identity or
of the internal ordering of the scope's pattern sets during construction;
and changing any one hashed field (beyond a mere reordering of a pattern
set, which the canonical sorted encoding erases by design) changes the
hash.  Formalized as: the hashes agree exactly when every scalar field
agrees and the pattern/limit lists agree as multisets. -/
theorem iba_C6_hash_determinism (d1 d2 : IntentDeclaration) :
    d1.get_deterministic_hash = d2.get_deterministic_hash ↔
      (d1.intent_id = d2.intent_id ∧ d1.declared_purpose = d2.declared_purpose ∧
       d1.authorized_by = d2.authorized_by ∧
       d1.scope.allowed_resources.Perm d2.scope.allowed_resources ∧
       d1.scope.forbidden_resources.Perm d2.scope.forbidden_resources ∧
       d1.scope.resource_limits.Perm d2.scope.resource_limits ∧
       d1.timestamp = d2.timestamp ∧ d1.expiration = d2.expiration) :=
  hash_eq_iff d1 d2

/-- Concrete declarations for the C6 witness: `dC6b` permutes `dC6a`'s
allowed patterns, `dC6c` changes only the declared purpose. -/
def dC6a : IntentDeclaration :=
  ⟨"test-004", "Test", "user@test.com",
   ⟨["b:*", "a:*"], ["f:x"], [("max_api_calls", 3)]⟩, 100, 3700⟩

/-- Permuted-pattern variant of `dC6a`. -/
def dC6b : IntentDeclaration :=
  ⟨"test-004", "Test", "user@test.com",
   ⟨["a:*", "b:*"], ["f:x"], [("max_api_calls", 3)]⟩, 100, 3700⟩

/-- Purpose-mutated variant of `dC6a`. -/
def dC6c : IntentDeclaration :=
  ⟨"test-004", "Changed", "user@test.com",
   ⟨["b:*", "a:*"], ["f:x"], [("max_api_calls", 3)]⟩, 100, 3700⟩

/-- Witness for C6: equal hash across a permuted construction, different
hash after a one-field change, at concrete declarations. -/
theorem iba_C6_witness :
    dC6a.get_deterministic_hash = dC6b.get_deterministic_hash ∧
      dC6a.get_deterministic_hash ≠ dC6c.get_deterministic_hash :=
  ⟨(iba_C6_hash_determinism dC6a dC6b).mpr (by decide),
   fun h => absurd ((iba_C6_hash_determinism dC6a dC6c).mp h).2.1 (by decide)⟩

/-- Claim C7: binding returns a token whose `intent_hash` equals the
declaration's deterministic hash and whose `algorithm` is `HMAC-SHA256`,
and verifying that token against the unmutated declaration succeeds. -/
theorem iba_C7_bind_verify_roundtrip (b : SimpleIntentBinder)
    (d : IntentDeclaration) (principal : String) (now : Nat) :
    (b.bind_intent d principal now).intent_hash = d.get_deterministic_hash ∧
    (b.bind_intent d principal now).algorithm = "HMAC-SHA256" ∧
    b.verify_intent (b.bind_intent d principal now) d = true := by
  refine ⟨rfl, rfl, ?_⟩
  simp [SimpleIntentBinder.verify_intent, SimpleIntentBinder.bind_intent]

/-- Claim C2: after binding, any mutation of a hashed field of the
declaration (changing `declared_purpose` in particular) makes
`verify_intent` return the boolean `false`; by construction the check is a
total boolean-valued function, so failure is never a thrown error. -/
theorem iba_C2_tamper_detection (b : SimpleIntentBinder)
    (d : IntentDeclaration) (principal : String) (now : Nat) :
    (∀ d' : IntentDeclaration,
        d'.get_deterministic_hash ≠ d.get_deterministic_hash →
        b.verify_intent (b.bind_intent d principal now) d' = false) ∧
    (∀ purpose2 : String, purpose2 ≠ d.declared_purpose →
        b.verify_intent (b.bind_intent d principal now)
          { d with declared_purpose := purpose2 } = false) := by
  constructor
  · intro d' hne
    simp [SimpleIntentBinder.verify_intent, SimpleIntentBinder.bind_intent, hne]
  · intro p2 hne
    have hh : ({ d with declared_purpose := p2 } :
        IntentDeclaration).get_deterministic_hash ≠ d.get_deterministic_hash :=
      fun h => hne ((hash_eq_iff _ _).mp h).2.1
    simp [SimpleIntentBinder.verify_intent, SimpleIntentBinder.bind_intent, hh]

/-- Concrete declaration for the C2 witness. -/
def dC2 : IntentDeclaration :=
  ⟨"test-012", "Original purpose", "user@test.com", ⟨["test:read"], [], []⟩, 0, 3600⟩

/-- Witness for C2: a concrete bind, tamper with `declared_purpose`, failed
verification. -/
theorem iba_C2_witness :
    SimpleIntentBinder.verify_intent ⟨"secret"⟩
      (SimpleIntentBinder.bind_intent ⟨"secret"⟩ dC2 "user@test.com" 50)
      { dC2 with declared_purpose := "TAMPERED purpose" } = false :=
  (iba_C2_tamper_detection ⟨"secret"⟩ dC2 "user@test.com" 50).2
    "TAMPERED purpose" (by decide)

/-- Claim C8: `from_dict ∘ to_dict` reproduces a declaration with every
field equal and an identical deterministic hash. -/
theorem iba_C8_dict_roundtrip (d : IntentDeclaration) :
    IntentDeclaration.from_dict d.to_dict = d ∧
    (IntentDeclaration.from_dict d.to_dict).get_deterministic_hash =
      d.get_deterministic_hash :=
  ⟨rfl, rfl⟩

/-- Claim C10: with no explicit expiration, construction succeeds with
`expiration = timestamp + 1 hour`, which for a freshly created declaration
(timestamp = current instant) lies strictly after the current time and
before current time + 2 hours; and `is_expired now` is true iff
`now ≥ expiration`. -/
theorem iba_C10_expiration_default (i p a : String) (s : IntentScope)
    (ts : Nat) (d : IntentDeclaration)
    (h : IntentDeclaration.create i p a s ts none = Except.ok d) :
    d.timestamp = ts ∧ d.expiration = ts + 3600 ∧
    ts < d.expiration ∧ d.expiration < ts + 7200 ∧
    (∀ (d' : IntentDeclaration) (now : Nat),
        d'.is_expired now = true ↔ d'.expiration ≤ now) := by
  unfold IntentDeclaration.create at h
  simp only [Option.getD_none] at h
  split_ifs at h
  obtain rfl : (⟨i, p, a, s, ts, ts + 3600⟩ : IntentDeclaration) = d :=
    Except.ok.inj h
  refine ⟨rfl, rfl, ?_, ?_, ?_⟩
  · show ts < ts + 3600
    omega
  · show ts + 3600 < ts + 7200
    omega
  · intro d' now
    simp [IntentDeclaration.is_expired]

/-- Claim C1: on a non-expired declaration, a resource matching a forbidden
pattern is always denied with the forbidden-pattern reason, regardless of
the allowed patterns (`["*"]` included); and an admitted action implies the
resource was allowed and not forbidden — the combined scope admission is
`is_allowed ∧ ¬ is_forbidden`, with forbidden strictly overriding
allowed. -/
theorem iba_C1_forbidden_overrides (v : IntentValidator) (now : Nat)
    (action resource : String)
    (hexp : v.declaration.is_expired now = false) :
    (v.declaration.scope.is_forbidden resource = true →
      (v.validate_action now action resource).1.allowed = false ∧
      (v.validate_action now action resource).1.reason =
        "Resource matches forbidden pattern") ∧
    ((v.validate_action now action resource).1.allowed = true →
      v.declaration.scope.is_allowed resource = true ∧
      v.declaration.scope.is_forbidden resource = false) := by
  constructor
  · intro hf
    constructor <;>
      simp [IntentValidator.validate_action, hexp, hf, IntentValidator.record]
  · intro hall
    by_cases hf : v.declaration.scope.is_forbidden resource = true
    · exfalso
      simp [IntentValidator.validate_action, hexp, hf,
            IntentValidator.record] at hall
    · rw [Bool.not_eq_true] at hf
      by_cases ha : v.declaration.scope.is_allowed resource = true
      · exact ⟨ha, hf⟩
      · exfalso
        rw [Bool.not_eq_true] at ha
        simp [IntentValidator.validate_action, hexp, hf, ha,
              IntentValidator.record] at hall

/-- Concrete declaration for the C1 witness: everything allowed, medical
records forbidden. -/
def dC1 : IntentDeclaration :=
  ⟨"test-006", "Read calendar", "user@test.com",
   ⟨["*"], ["medical_records:*"], []⟩, 0, 3600⟩

/-- Witness for C1: concrete denial of a forbidden resource even under
`allowed_resources = ["*"]`. -/
theorem iba_C1_witness :
    ((IntentValidator.init dC1).validate_action 0 "read"
        "medical_records:patient_data").1.allowed = false ∧
    ((IntentValidator.init dC1).validate_action 0 "read"
        "medical_records:patient_data").1.reason =
      "Resource matches forbidden pattern" :=
  (iba_C1_forbidden_overrides (IntentValidator.init dC1) 0 "read"
    "medical_records:patient_data" (by decide)).1 (by decide)

/-- Validator state after running a sequence of timed admissions from a
fresh session on one declaration. -/
def sessionAfter (d : IntentDeclaration)
    (calls : List (Nat × String × String)) : IntentValidator :=
  (IntentValidator.init d).runActionsAt calls

theorem runActionsAt_tally_invariant (calls : List (Nat × String × String)) :
    ∀ v : IntentValidator,
      v.allowed_count + v.blocked_count = v.history.length →
      (v.runActionsAt calls).allowed_count + (v.runActionsAt calls).blocked_count =
        (v.runActionsAt calls).history.length := by
  induction calls with
  | nil => intro v hv; exact hv
  | cons c cs ih =>
    intro v hv
    have hstep := validate_action_facts v c.1 c.2.1 c.2.2
    have : (v.validate_action c.1 c.2.1 c.2.2).2.allowed_count +
        (v.validate_action c.1 c.2.1 c.2.2).2.blocked_count =
        (v.validate_action c.1 c.2.1 c.2.2).2.history.length := by
      rw [hstep.2.2, hstep.2.1]
      simp [hv]
    exact ih _ this

/-- Claim C9: after every sequence of admissions on one validator,
`allowed + blocked = total_actions`, `total_actions = len(history)` and
`violation_rate = blocked / total_actions` with the rate defined as 0 when
`total_actions = 0`. -/
theorem iba_C9_statistics_invariant (d : IntentDeclaration)
    (calls : List (Nat × String × String)) :
    ((sessionAfter d calls).get_statistics).allowed +
        ((sessionAfter d calls).get_statistics).blocked =
      ((sessionAfter d calls).get_statistics).total_actions ∧
    ((sessionAfter d calls).get_statistics).total_actions =
      (sessionAfter d calls).history.length ∧
    ((sessionAfter d calls).get_statistics).violation_rate =
      (if ((sessionAfter d calls).get_statistics).total_actions = 0 then 0
       else (((sessionAfter d calls).get_statistics).blocked : ℚ) /
         (((sessionAfter d calls).get_statistics).total_actions : ℚ)) :=
  ⟨runActionsAt_tally_invariant calls (IntentValidator.init d) rfl, rfl, rfl⟩

theorem limited_step (d : IntentDeclaration) (now : Nat) (a r : String)
    (hlim : d.scope.resource_limits = [("max_api_calls", 3)])
    (hall : d.scope.is_allowed r = true)
    (hforb : d.scope.is_forbidden r = false)
    (hexp : d.is_expired now = false)
    (v : IntentValidator) (hv : v.declaration = d) :
    ((v.validate_action now a r).2).api_calls = min (v.api_calls + 1) 4 ∧
    ((v.validate_action now a r).2).declaration = d ∧
    (v.api_calls + 1 ≤ 3 →
      (v.validate_action now a r).1 =
        ⟨true, "Action aligns with declared intent"⟩) ∧
    (3 < v.api_calls + 1 →
      (v.validate_action now a r).1 = ⟨false, "API call limit exceeded"⟩) := by
  have hcore : v.validate_action now a r =
      (if 3 < min (v.api_calls + 1) 4 then
        IntentValidator.record { v with api_calls := min (v.api_calls + 1) 4 }
          a r false "API call limit exceeded"
      else
        IntentValidator.record { v with api_calls := min (v.api_calls + 1) 4 }
          a r true "Action aligns with declared intent") := by
    unfold IntentValidator.validate_action
    rw [hv]
    simp [hexp, hforb, hall, hlim, List.lookup]
  rw [hcore]
  split_ifs with h4
  · exact ⟨rfl, hv, fun hle => by omega, fun _ => rfl⟩
  · exact ⟨rfl, hv, fun _ => rfl, fun hlt => by omega⟩

theorem limited_run (d : IntentDeclaration) (now : Nat) (a r : String)
    (hlim : d.scope.resource_limits = [("max_api_calls", 3)])
    (hall : d.scope.is_allowed r = true)
    (hforb : d.scope.is_forbidden r = false)
    (hexp : d.is_expired now = false) :
    ∀ n : Nat,
      ((IntentValidator.init d).runActions now
          (List.replicate n (a, r))).api_calls = min n 4 ∧
      ((IntentValidator.init d).runActions now
          (List.replicate n (a, r))).declaration = d := by
  intro n
  induction n with
  | zero => exact ⟨rfl, rfl⟩
  | succ k ih =>
    rw [List.replicate_succ']
    unfold IntentValidator.runActions at *
    rw [List.foldl_append]
    simp only [List.foldl_cons, List.foldl_nil]
    have hstep := limited_step d now a r hlim hall hforb hexp _ ih.2
    refine ⟨?_, hstep.2.1⟩
    rw [hstep.1, ih.1]
    omega

/-- Claim C4: with `resource_limits = {"max_api_calls": 3}`, an always
allowed never forbidden resource and a non-expired declaration, the 1st
through 3rd admissions are allowed, every later one is denied with the
stable limit-exceeded reason, and the counter saturates at 4 (ceiling + 1),
never incremented further on the denied calls. -/
theorem iba_C4_api_call_limit (d : IntentDeclaration) (now : Nat)
    (action resource : String) (n : Nat)
    (hlim : d.scope.resource_limits = [("max_api_calls", 3)])
    (hall : d.scope.is_allowed resource = true)
    (hforb : d.scope.is_forbidden resource = false)
    (hexp : d.is_expired now = false) :
    (n < 3 → (IntentValidator.nthCall d now action resource n).1 =
      ⟨true, "Action aligns with declared intent"⟩) ∧
    (3 ≤ n → (IntentValidator.nthCall d now action resource n).1 =
        ⟨false, "API call limit exceeded"⟩ ∧
      ((IntentValidator.nthCall d now action resource n).2).api_calls = 4) := by
  have hrun := limited_run d now action resource hlim hall hforb hexp n
  have hstep := limited_step d now action resource hlim hall hforb hexp _ hrun.2
  unfold IntentValidator.nthCall
  constructor
  · intro hn
    exact hstep.2.2.1 (by rw [hrun.1]; omega)
  · intro hn
    refine ⟨hstep.2.2.2 (by rw [hrun.1]; omega), ?_⟩
    rw [hstep.1, hrun.1]
    omega

/-- Concrete declaration for the C4 witness. -/
def dC4 : IntentDeclaration :=
  ⟨"test-008", "Test limits", "user@test.com",
   ⟨["test:*"], [], [("max_api_calls", 3)]⟩, 0, 3600⟩

/-- Witness for C4: at the concrete limited scope, the 4th call is denied
with the limit reason and the counter saturates at 4. -/
theorem iba_C4_witness :
    (IntentValidator.nthCall dC4 0 "test" "test:action" 3).1 =
      ⟨false, "API call limit exceeded"⟩ ∧
    ((IntentValidator.nthCall dC4 0 "test" "test:action" 3).2).api_calls = 4 :=
  (iba_C4_api_call_limit dC4 0 "test" "test:action" 3 rfl (by decide)
    (by decide) (by decide)).2 (by omega)

theorem forbidden_step_violations (v : IntentValidator) (now : Nat)
    (a r : String)
    (hexp : v.declaration.is_expired now = false)
    (hf : v.declaration.scope.is_forbidden r = true) :
    ((v.validate_action now a r).2).violations = v.violations + 1 ∧
    ((v.validate_action now a r).2).declaration = v.declaration := by
  refine ⟨?_, (validate_action_facts v now a r).1⟩
  simp [IntentValidator.validate_action, hexp, hf, IntentValidator.record,
        IntentValidator.violations, List.countP_append]

theorem forbidden_run_violations (d : IntentDeclaration) (now : Nat)
    (a r : String)
    (hexp : d.is_expired now = false)
    (hf : d.scope.is_forbidden r = true) :
    ∀ n : Nat,
      ((IntentValidator.init d).runActions now
          (List.replicate n (a, r))).violations = n ∧
      ((IntentValidator.init d).runActions now
          (List.replicate n (a, r))).declaration = d := by
  intro n
  induction n with
  | zero => exact ⟨rfl, rfl⟩
  | succ k ih =>
    rw [List.replicate_succ']
    unfold IntentValidator.runActions at *
    rw [List.foldl_append]
    simp only [List.foldl_cons, List.foldl_nil]
    have hstep := forbidden_step_violations _ now a r
      (by rw [ih.2]; exact hexp) (by rw [ih.2]; exact hf)
    exact ⟨by rw [hstep.1, ih.1], by rw [hstep.2, ih.2]⟩

/-- Claim C5: `detect_drift` reports drift with reason exactly
"Repeated violations detected" whenever the history holds 3 or more denied
actions — in particular after 5 consecutive denials against a forbidden
resource — and reports no drift with zero or one denial. -/
theorem iba_C5_drift_detection :
    (∀ v : IntentValidator, 3 ≤ v.violations →
      v.detect_drift = ⟨true, some "Repeated violations detected"⟩) ∧
    (∀ v : IntentValidator, v.violations ≤ 1 →
      v.detect_drift = ⟨false, none⟩) ∧
    (∀ (d : IntentDeclaration) (now : Nat) (a r : String),
      d.is_expired now = false → d.scope.is_forbidden r = true →
      ((IntentValidator.init d).runActions now
          (List.replicate 5 (a, r))).detect_drift =
        ⟨true, some "Repeated violations detected"⟩) := by
  refine ⟨?_, ?_, ?_⟩
  · intro v h
    unfold IntentValidator.detect_drift
    rw [if_pos h]
  · intro v h
    unfold IntentValidator.detect_drift
    rw [if_neg (by omega)]
  · intro d now a r hexp hf
    have hrun := forbidden_run_violations d now a r hexp hf 5
    unfold IntentValidator.detect_drift
    rw [hrun.1, if_pos (by omega)]

/-- Concrete declaration for the C5 witness. -/
def dC5 : IntentDeclaration :=
  ⟨"test-009", "Test drift", "user@test.com",
   ⟨["allowed:*"], ["forbidden:*"], []⟩, 0, 3600⟩

/-- Witness for C5: five concrete denials against a forbidden resource
trigger drift detection. -/
theorem iba_C5_witness :
    ((IntentValidator.init dC5).runActions 0
        (List.replicate 5 ("access", "forbidden:resource"))).detect_drift =
      ⟨true, some "Repeated violations detected"⟩ :=
  iba_C5_drift_detection.2.2 dC5 0 "access" "forbidden:resource"
    (by decide) (by decide)

/-- Concrete declaration produced by the C10 witness construction. -/
def dC10 : IntentDeclaration := ⟨"a", "b", "c", ⟨[], [], []⟩, 0, 3600⟩

/-- Witness for C10: concrete default-expiration construction. -/
theorem iba_C10_witness :
    dC10.timestamp = 0 ∧ dC10.expiration = 0 + 3600 ∧
    0 < dC10.expiration ∧ dC10.expiration < 0 + 7200 ∧
    (∀ (d' : IntentDeclaration) (now : Nat),
        d'.is_expired now = true ↔ d'.expiration ≤ now) :=
  iba_C10_expiration_default "a" "b" "c" ⟨[], [], []⟩ 0 dC10 rfl

end IBA
